import Mathlib

/-!
Shallow embedding of the risk-scoring core of the Soil Health and Food
Security repository (`src/analysis/final_atlas_fusion_analysis.py` and the
`calculate_compound_risk` step of `src/analysis/2_process_geospatial_data.py`),
together with theorems settling the specification claims about it.

Tabular columns are lists; a cell is `Option ℚ`, with `none` playing the role
of pandas `NaN` (rationals stand for the float arithmetic, which the claims
treat mathematically).
-/

set_option maxHeartbeats 1000000

/-- A tabular cell: a rational value or `none` for a pandas `NaN`. -/
abbrev Cell := Option ℚ

/-- Embedding of `series.dropna()`: the present values of a column, in order. -/
def dropna (s : List Cell) : List ℚ := s.filterMap id

/-- Embedding of `Series.max()` on a non-empty column; 0 on the empty list
(a case no caller relies on). -/
def listMax : List ℚ → ℚ
  | [] => 0
  | x :: xs => xs.foldl max x

/-- Embedding of `Series.min()` on a non-empty column; 0 on the empty list. -/
def listMin : List ℚ → ℚ
  | [] => 0
  | x :: xs => xs.foldl min x

/-- Embedding of `AtlasFusionPipeline._normalize_to_risk`: when every entry is
missing the column is returned unchanged; when all present values are equal the
column becomes the constant 1/2; otherwise each present value is linearly
rescaled by min and max of the present values and clipped to the unit
interval, missing entries staying missing. -/
def normalize_to_risk (series : List Cell) : List Cell :=
  if dropna series = [] then series
  else
    let min_val := listMin (dropna series)
    let max_val := listMax (dropna series)
    if max_val = min_val then series.map (fun _ => some (1 / 2))
    else series.map (fun c => c.map (fun x =>
      max 0 (min 1 ((x - min_val) / (max_val - min_val)))))

/-- Embedding of the `pd.cut` call shared by `calculate_risk_scores` and
`create_multi_level_aggregations`: bins `[0, 0.25, 0.5, 0.75, 1.0]` with
labels Low/Moderate/High/Very High, pandas' default right-closed intervals and
`include_lowest=True`, hence the intervals [0, 1/4], (1/4, 1/2], (1/2, 3/4],
(3/4, 1]; values outside every bin and missing values get no category. -/
def riskCategory (c : Cell) : Option String :=
  match c with
  | none => none
  | some v =>
    if 0 ≤ v ∧ v ≤ 1 / 4 then some "Low"
    else if 1 / 4 < v ∧ v ≤ 1 / 2 then some "Moderate"
    else if 1 / 2 < v ∧ v ≤ 3 / 4 then some "High"
    else if 3 / 4 < v ∧ v ≤ 1 then some "Very High"
    else none

/-- Modelled from the spec: the discretization as the specification words it,
closed-left / open-right bins with the final bin closed on both ends:
Low [0, 0.25), Moderate [0.25, 0.5), High [0.5, 0.75), Very High [0.75, 1.0]. -/
def riskCategorySpecBins (v : ℚ) : Option String :=
  if 0 ≤ v ∧ v < 1 / 4 then some "Low"
  else if 1 / 4 ≤ v ∧ v < 1 / 2 then some "Moderate"
  else if 1 / 2 ≤ v ∧ v < 3 / 4 then some "High"
  else if 3 / 4 ≤ v ∧ v ≤ 1 then some "Very High"
  else none

/-- Embedding of `DataFrame.mean(axis=1, skipna=True)` at one row over a fixed
set of columns: the mean of the present entries, missing when all are. -/
def meanSkipna (cells : List Cell) : Cell :=
  if dropna cells = [] then none
  else some ((dropna cells).sum / (dropna cells).length)

/-- Embedding of the pandas product of two score columns at one row: missing
whenever either factor is missing. -/
def cellMul (a b : Cell) : Cell :=
  match a, b with
  | some x, some y => some (x * y)
  | _, _ => none

/-- One row of the fused master table entering `calculate_risk_scores`: the
admin key plus the fused source columns the scorer reads. The `poverty` field
models the `poverty_headcount` ratio column; the exposure columns
(population, crop value) play no part in the scores and are omitted. -/
structure MasterRow where
  country : String
  region : String
  sub_region : String
  ndws_future_days : Cell
  tai_erosion_proxy : Cell
  poverty : Cell

/-- Step 1 of `calculate_risk_scores`: normalized water-stress hazard column. -/
def hazard_water_stress (rows : List MasterRow) : List Cell :=
  normalize_to_risk (rows.map (fun r => r.ndws_future_days))

/-- Step 1 of `calculate_risk_scores`: normalized erosion-proxy hazard column. -/
def hazard_erosion_risk (rows : List MasterRow) : List Cell :=
  normalize_to_risk (rows.map (fun r => r.tai_erosion_proxy))

/-- Step 2 of `calculate_risk_scores`: row-wise skipna mean of the two hazard
columns. -/
def hazard_score_composite (rows : List MasterRow) : List Cell :=
  List.zipWith (fun a b => meanSkipna [a, b])
    (hazard_water_stress rows) (hazard_erosion_risk rows)

/-- Step 3 of `calculate_risk_scores`: the poverty column taken as-is
("Already 0-1" in the source). -/
def social_vulnerability (rows : List MasterRow) : List Cell :=
  rows.map (fun r => r.poverty)

/-- Step 4 of `calculate_risk_scores`: environmental vulnerability aliases the
normalized erosion hazard. -/
def environmental_vulnerability (rows : List MasterRow) : List Cell :=
  hazard_erosion_risk rows

/-- Step 5 of `calculate_risk_scores`: row-wise skipna mean of social and
environmental vulnerability. -/
def vulnerability_composite (rows : List MasterRow) : List Cell :=
  List.zipWith (fun a b => meanSkipna [a, b])
    (social_vulnerability rows) (environmental_vulnerability rows)

/-- Step 6 of `calculate_risk_scores`: compound risk is the plain product of
the hazard and vulnerability composites, with no further renormalization. -/
def compound_risk_score (rows : List MasterRow) : List Cell :=
  List.zipWith cellMul (hazard_score_composite rows) (vulnerability_composite rows)

/-- Step 7 of `calculate_risk_scores`: the category column. -/
def risk_category_col (rows : List MasterRow) : List (Option String) :=
  (compound_risk_score rows).map riskCategory

/-- A two-row master table in which every input is present: water stress and
erosion 0 and 10, poverty 0 and 1/2. -/
def exMaster : List MasterRow :=
  [⟨"Kenya", "R1", "S1", some 0, some 0, some 0⟩,
   ⟨"Kenya", "R2", "S2", some 10, some 10, some (1 / 2)⟩]

/-- One row of the geospatial master table entering `calculate_compound_risk`
of `2_process_geospatial_data.py`; the upstream steps there leave all three
score columns present. -/
structure GeoScoredRow where
  hazard_score : ℚ
  social_vulnerability_score : ℚ
  environmental_vulnerability_score : ℚ

/-- First step of `calculate_compound_risk`: combined vulnerability is the
mean of the social and environmental scores. -/
def combined_vulnerability_score (r : GeoScoredRow) : ℚ :=
  (r.social_vulnerability_score + r.environmental_vulnerability_score) / 2

/-- The raw product `hazard_score * combined_vulnerability_score` computed by
`calculate_compound_risk` before its renormalization line. -/
def rawCompound (r : GeoScoredRow) : ℚ :=
  r.hazard_score * combined_vulnerability_score r

/-- Embedding of `calculate_compound_risk`: the raw product column divided by
its dataset-wide maximum. -/
def calculate_compound_risk (rows : List GeoScoredRow) : List ℚ :=
  (rows.map rawCompound).map (fun x => x / listMax (rows.map rawCompound))

/-- Insertion of a value into a sorted list of rationals, for the sort
underlying the pandas median. -/
def insertSorted (x : ℚ) : List ℚ → List ℚ
  | [] => [x]
  | y :: ys => if x ≤ y then x :: y :: ys else y :: insertSorted x ys

/-- Ascending insertion sort of a list of rationals. -/
def sortAsc (l : List ℚ) : List ℚ := l.foldr insertSorted []

/-- Embedding of `Series.median()` over the present values: the middle element
of the sorted values for odd length, the mean of the two middle elements for
even length, and missing (pandas NaN) for an empty list. -/
def median (l : List ℚ) : Cell :=
  if sortAsc l = [] then none
  else if (sortAsc l).length % 2 = 1 then
    some ((sortAsc l).getD ((sortAsc l).length / 2) 0)
  else
    some (((sortAsc l).getD ((sortAsc l).length / 2 - 1) 0 +
      (sortAsc l).getD ((sortAsc l).length / 2) 0) / 2)

/-- One row of the master table as seen by the Missing-Data Resolver part of
`fuse_all_datasets` (lines 300-328): the country key driving the hierarchical
imputation and the imputable poverty column (`poverty_headcount` ratio). -/
structure PovRow where
  country : String
  poverty : Cell

/-- The present poverty values of one country group, embedding the
`groupby('country')` group that the transform's `x.median()` sees. -/
def countryValues (rows : List PovRow) (c : String) : List ℚ :=
  (rows.filter (fun r => r.country = c)).filterMap (fun r => r.poverty)

/-- Embedding of the country-level imputation transform
`x.fillna(x.median())`: a present value stays, a missing one becomes the
median of its country group's present values. -/
def imputeCountry (rows : List PovRow) (r : PovRow) : Cell :=
  match r.poverty with
  | some v => some v
  | none => median (countryValues rows r.country)

/-- Embedding of `fillna(g)` at one cell. -/
def fillCell (g : Cell) (c : Cell) : Cell :=
  match c with
  | some v => some v
  | none => g

/-- Embedding of the Missing-Data Resolver (`fuse_all_datasets`, lines
300-328): if nothing is missing the column is untouched and the imputation
flags are all False; otherwise the originally-missing rows are recorded as
flags, the column is imputed by country median, and remaining gaps are filled
with the global median of the column as it stands after country imputation.
Returns the resolved poverty column and the `poverty_imputed` flag column. -/
def resolveMissing (rows : List PovRow) : List Cell × List Bool :=
  if rows.countP (fun r => r.poverty.isNone) = 0 then
    (rows.map (fun r => r.poverty), rows.map (fun _ => false))
  else
    ((rows.map (imputeCountry rows)).map
        (fillCell (median ((rows.map (imputeCountry rows)).filterMap id))),
      rows.map (fun r => r.poverty.isNone))

/-- A three-row poverty table with one missing value in country A. -/
def demoPov : List PovRow :=
  [⟨"A", some (1 / 4)⟩, ⟨"A", none⟩, ⟨"B", some (3 / 4)⟩]

/-- The administrative key joined on by the Fusion Engine
(`on=['country','region','sub_region']`). -/
structure GeoKey where
  country : String
  region : String
  sub_region : String
deriving DecidableEq

/-- Row multiplicity of a pandas inner merge on the key columns: every left
row is paired with each matching right row, so only key occurrences matter
for cardinality. -/
def innerJoinKeys (left right : List GeoKey) : List GeoKey :=
  left.flatMap (fun k => (right.filter (fun r => r = k)).map (fun _ => k))

/-- Row multiplicity of a pandas left merge on the key columns: a left row
with no match survives once; otherwise it is paired with each match. -/
def leftJoinKeys (left right : List GeoKey) : List GeoKey :=
  left.flatMap (fun k =>
    if (right.filter (fun r => r = k)) = [] then [k]
    else (right.filter (fun r => r = k)).map (fun _ => k))

/-- Key multiplicities through the join sequence of `fuse_all_datasets`:
base erosion table, inner join NDWS, inner join VOP, left join population,
left join poverty. -/
def fuseRowKeys (erosion ndws vop population poverty : List GeoKey) : List GeoKey :=
  leftJoinKeys
    (leftJoinKeys (innerJoinKeys (innerJoinKeys erosion ndws) vop) population)
    poverty

/-- Embedding of `numpy.average(x, weights=w)`: the weighted mean, undefined
(`ZeroDivisionError` in numpy) when the weights sum to zero. -/
def npAverage (vals weights : List ℚ) : Option ℚ :=
  if weights.sum = 0 then none
  else some ((List.zipWith (fun v w => v * w) vals weights).sum / weights.sum)

/-- Embedding of the pandas `mean` aggregation over a (non-empty) group. -/
def listMean (l : List ℚ) : ℚ := l.sum / l.length

/-- One scored record of a country or country-region aggregation group, with
the columns read by `create_multi_level_aggregations`. -/
structure ScoredRec where
  population_total : ℚ
  vop_crops_usd : ℚ
  compound_risk_score : ℚ
  hazard_water_stress : ℚ
  hazard_erosion_risk : ℚ
  social_vulnerability : ℚ
  environmental_vulnerability : ℚ
  vulnerability_composite : ℚ

/-- The aggregate of one group as produced by the `.agg({...})` dictionary of
`create_multi_level_aggregations`: sums for population and crop value,
population-weighted means (via `np.average`) for compound risk, social
vulnerability and combined vulnerability, and plain means for the two hazard
sub-scores and environmental vulnerability. -/
structure AggRec where
  population_total : ℚ
  vop_crops_usd : ℚ
  compound_risk_score : Option ℚ
  hazard_water_stress : ℚ
  hazard_erosion_risk : ℚ
  social_vulnerability : Option ℚ
  environmental_vulnerability : ℚ
  vulnerability_composite : Option ℚ

/-- Embedding of the group aggregation of `create_multi_level_aggregations`
(the same dictionary serves the region and the country level). -/
def aggregateGroup (g : List ScoredRec) : AggRec where
  population_total := (g.map (fun r => r.population_total)).sum
  vop_crops_usd := (g.map (fun r => r.vop_crops_usd)).sum
  compound_risk_score :=
    npAverage (g.map (fun r => r.compound_risk_score))
      (g.map (fun r => r.population_total))
  hazard_water_stress := listMean (g.map (fun r => r.hazard_water_stress))
  hazard_erosion_risk := listMean (g.map (fun r => r.hazard_erosion_risk))
  social_vulnerability :=
    npAverage (g.map (fun r => r.social_vulnerability))
      (g.map (fun r => r.population_total))
  environmental_vulnerability :=
    listMean (g.map (fun r => r.environmental_vulnerability))
  vulnerability_composite :=
    npAverage (g.map (fun r => r.vulnerability_composite))
      (g.map (fun r => r.population_total))

/-- One raw record of the NDWS hazard source as read by
`process_hazard_ndws`: admin key, scenario and timeframe dimensions, value. -/
structure NdwsRaw where
  country : String
  region : String
  sub_region : String
  scenario : String
  timeframe : String
  value : ℚ

/-- Embedding of `process_hazard_ndws`: keep the rows of the configured
scenario and timeframe, select the key and value columns (renamed to
`ndws_future_days`). There is no emptiness check and no error path. -/
def process_hazard_ndws (df : List NdwsRaw) : List (GeoKey × ℚ) :=
  (df.filter (fun r => r.scenario == "ssp245" && r.timeframe == "2041_2060")).map
    (fun r => (⟨r.country, r.region, r.sub_region⟩, r.value))

/-- Embedding of the only emptiness check in the pipeline, in
`run_complete_analysis` after fusion:
`if len(master_df) == 0: raise ValueError("Fusion resulted in empty dataset")`. -/
def validateFusion {α : Type} (master : List α) : Except String (List α) :=
  if master.length = 0 then Except.error "Fusion resulted in empty dataset"
  else Except.ok master

theorem foldl_max_init_le (xs : List ℚ) (x : ℚ) : x ≤ xs.foldl max x := by
  induction xs generalizing x with
  | nil => exact le_refl x
  | cons y ys ih => exact le_trans (le_max_left x y) (ih (max x y))

theorem le_foldl_max_of_mem {a : ℚ} {xs : List ℚ} (x : ℚ) (h : a ∈ xs) :
    a ≤ xs.foldl max x := by
  induction xs generalizing x with
  | nil => cases h
  | cons y ys ih =>
    rcases List.mem_cons.mp h with rfl | hmem
    · exact le_trans (le_max_right x a) (foldl_max_init_le ys (max x a))
    · exact ih (max x y) hmem

theorem foldl_max_mem (xs : List ℚ) (x : ℚ) :
    xs.foldl max x = x ∨ xs.foldl max x ∈ xs := by
  induction xs generalizing x with
  | nil => exact Or.inl rfl
  | cons y ys ih =>
    rcases ih (max x y) with h | h
    · rcases max_choice x y with hm | hm
      · exact Or.inl (by rw [List.foldl_cons, h, hm])
      · exact Or.inr (by rw [List.foldl_cons, h, hm]; exact List.mem_cons_self y ys)
    · exact Or.inr (List.mem_cons_of_mem y h)

theorem le_listMax_of_mem {a : ℚ} {l : List ℚ} (h : a ∈ l) : a ≤ listMax l := by
  cases l with
  | nil => cases h
  | cons x xs =>
    rcases List.mem_cons.mp h with rfl | hmem
    · exact foldl_max_init_le xs a
    · exact le_foldl_max_of_mem x hmem

theorem listMax_mem {l : List ℚ} (h : l ≠ []) : listMax l ∈ l := by
  cases l with
  | nil => exact absurd rfl h
  | cons x xs =>
    rcases foldl_max_mem xs x with he | he
    · rw [listMax, he]; exact List.mem_cons_self x xs
    · exact List.mem_cons_of_mem x he

theorem foldl_min_le_init (xs : List ℚ) (x : ℚ) : xs.foldl min x ≤ x := by
  induction xs generalizing x with
  | nil => exact le_refl x
  | cons y ys ih => exact le_trans (ih (min x y)) (min_le_left x y)

theorem foldl_min_le_of_mem {a : ℚ} {xs : List ℚ} (x : ℚ) (h : a ∈ xs) :
    xs.foldl min x ≤ a := by
  induction xs generalizing x with
  | nil => cases h
  | cons y ys ih =>
    rcases List.mem_cons.mp h with rfl | hmem
    · exact le_trans (foldl_min_le_init ys (min x a)) (min_le_right x a)
    · exact ih (min x y) hmem

theorem foldl_min_mem (xs : List ℚ) (x : ℚ) :
    xs.foldl min x = x ∨ xs.foldl min x ∈ xs := by
  induction xs generalizing x with
  | nil => exact Or.inl rfl
  | cons y ys ih =>
    rcases ih (min x y) with h | h
    · rcases min_choice x y with hm | hm
      · exact Or.inl (by rw [List.foldl_cons, h, hm])
      · exact Or.inr (by rw [List.foldl_cons, h, hm]; exact List.mem_cons_self y ys)
    · exact Or.inr (List.mem_cons_of_mem y h)

theorem listMin_le_of_mem {a : ℚ} {l : List ℚ} (h : a ∈ l) : listMin l ≤ a := by
  cases l with
  | nil => cases h
  | cons x xs =>
    rcases List.mem_cons.mp h with rfl | hmem
    · exact foldl_min_le_init xs a
    · exact foldl_min_le_of_mem x hmem

theorem listMin_mem {l : List ℚ} (h : l ≠ []) : listMin l ∈ l := by
  cases l with
  | nil => exact absurd rfl h
  | cons x xs =>
    rcases foldl_min_mem xs x with he | he
    · rw [listMin, he]; exact List.mem_cons_self x xs
    · exact List.mem_cons_of_mem x he

theorem listMin_le_listMax {l : List ℚ} (h : l ≠ []) : listMin l ≤ listMax l :=
  le_trans (listMin_le_of_mem (listMax_mem h)) (le_refl _)

theorem mem_dropna_of_some {s : List Cell} {x : ℚ} (h : some x ∈ s) :
    x ∈ dropna s := by
  unfold dropna
  exact List.mem_filterMap.mpr ⟨some x, h, rfl⟩

theorem normalize_entry_bounds {s : List Cell} {x : ℚ}
    (h : some x ∈ normalize_to_risk s) : 0 ≤ x ∧ x ≤ 1 := by
  unfold normalize_to_risk at h
  by_cases hempty : dropna s = []
  · rw [if_pos hempty] at h
    exact absurd (mem_dropna_of_some h) (by rw [hempty]; exact List.not_mem_nil x)
  · rw [if_neg hempty] at h
    by_cases hconst : listMax (dropna s) = listMin (dropna s)
    · rw [if_pos hconst] at h
      rcases List.mem_map.mp h with ⟨c, _, hc⟩
      have : x = 1 / 2 := (Option.some.inj hc).symm
      rw [this]; constructor <;> norm_num
    · rw [if_neg hconst] at h
      rcases List.mem_map.mp h with ⟨c, _, hc⟩
      cases c with
      | none => simp at hc
      | some y =>
        have hx : x = max 0 (min 1 ((y - listMin (dropna s)) /
            (listMax (dropna s) - listMin (dropna s)))) :=
          (Option.some.inj hc).symm
        constructor
        · rw [hx]; exact le_max_left 0 _
        · rw [hx]
          exact max_le (by norm_num) (min_le_left 1 _)

/-- C10: on a series whose entries are all missing, `_normalize_to_risk`
returns the input unchanged (the `len(clean_series) == 0` early return),
neither raising nor substituting the constant 1/2. -/
theorem C10_normalize_all_missing (s : List Cell) (h : ∀ c ∈ s, c = none) :
    normalize_to_risk s = s := by
  have hd : dropna s = [] := by
    unfold dropna
    rw [List.filterMap_eq_nil_iff]
    intro a ha
    rw [h a ha]
    rfl
  unfold normalize_to_risk
  rw [if_pos hd]

/-- Witness for C10 at the concrete two-row all-missing series. -/
theorem C10_witness : normalize_to_risk [none, none] = [none, none] :=
  C10_normalize_all_missing [none, none] (by decide)

/-- C9: on a series with at least one present value, `_normalize_to_risk`
returns the linear min-max rescaling when max ≠ min (every present result in
[0, 1], missing entries preserved), and the constant 1/2 when the present
values are all equal. -/
theorem C9_normalize_minmax (s : List Cell) (h : dropna s ≠ []) :
    (listMax (dropna s) ≠ listMin (dropna s) →
      normalize_to_risk s = s.map (fun c => c.map (fun x =>
        (x - listMin (dropna s)) / (listMax (dropna s) - listMin (dropna s)))) ∧
      ∀ x : ℚ, some x ∈ normalize_to_risk s → 0 ≤ x ∧ x ≤ 1) ∧
    (listMax (dropna s) = listMin (dropna s) →
      normalize_to_risk s = s.map (fun _ => some (1 / 2))) := by
  constructor
  · intro hne
    have hlt : listMin (dropna s) < listMax (dropna s) :=
      lt_of_le_of_ne (listMin_le_listMax h) (Ne.symm hne)
    have hdpos : 0 < listMax (dropna s) - listMin (dropna s) := sub_pos.mpr hlt
    constructor
    · unfold normalize_to_risk
      rw [if_neg h, if_neg hne]
      refine List.map_congr_left ?_
      intro c hc
      cases c with
      | none => rfl
      | some y =>
        have hy : y ∈ dropna s := mem_dropna_of_some hc
        have ht0 : 0 ≤ (y - listMin (dropna s)) /
            (listMax (dropna s) - listMin (dropna s)) :=
          div_nonneg (sub_nonneg.mpr (listMin_le_of_mem hy)) (le_of_lt hdpos)
        have ht1 : (y - listMin (dropna s)) /
            (listMax (dropna s) - listMin (dropna s)) ≤ 1 :=
          (div_le_one hdpos).mpr (sub_le_sub_right (le_listMax_of_mem hy) _)
        simp only [Option.map_some']
        rw [min_eq_right ht1, max_eq_right ht0]
    · intro x hx
      exact normalize_entry_bounds hx
  · intro heq
    unfold normalize_to_risk
    rw [if_neg h, if_pos heq]

/-- Witness for C9 at the series [0, 10, NaN]: min-max rescaling applies. -/
theorem C9_witness :
    normalize_to_risk [some 0, some 10, none] =
      ([some 0, some 10, none] : List Cell).map (fun c => c.map (fun x =>
        (x - listMin (dropna [some 0, some 10, none])) /
        (listMax (dropna [some 0, some 10, none]) -
          listMin (dropna [some 0, some 10, none])))) :=
  ((C9_normalize_minmax [some 0, some 10, none] (by decide)).1 (by decide)).1

/-- Counterexample to C3: at the boundary value 0.25 the code assigns Low
(right-closed first bin), while the claimed closed-left/open-right bins
assign Moderate. -/
theorem C3_counterexample :
    riskCategory (some (1 / 4)) = some "Low" ∧
    riskCategorySpecBins (1 / 4) = some "Moderate" := by
  constructor
  · simp only [riskCategory]
    rw [if_pos (by norm_num)]
  · simp only [riskCategorySpecBins]
    rw [if_neg (by norm_num), if_pos (by norm_num)]

/-- C3 amended: the code's bins are open-left/closed-right — Low on [0, 1/4],
Moderate on (1/4, 1/2], High on (1/2, 3/4], Very High on (3/4, 1] — and values
outside [0, 1] receive no category. -/
theorem C3_bins_right_closed (v : ℚ) :
    (0 ≤ v ∧ v ≤ 1 / 4 → riskCategory (some v) = some "Low") ∧
    (1 / 4 < v ∧ v ≤ 1 / 2 → riskCategory (some v) = some "Moderate") ∧
    (1 / 2 < v ∧ v ≤ 3 / 4 → riskCategory (some v) = some "High") ∧
    (3 / 4 < v ∧ v ≤ 1 → riskCategory (some v) = some "Very High") ∧
    (v < 0 ∨ 1 < v → riskCategory (some v) = none) := by
  refine ⟨fun h => ?_, fun h => ?_, fun h => ?_, fun h => ?_, fun h => ?_⟩
  · simp only [riskCategory]
    rw [if_pos h]
  · simp only [riskCategory]
    rw [if_neg (by push_neg; intro _; linarith [h.1]), if_pos h]
  · simp only [riskCategory]
    rw [if_neg (by push_neg; intro _; linarith [h.1]),
      if_neg (by push_neg; intro _; linarith [h.1]), if_pos h]
  · simp only [riskCategory]
    rw [if_neg (by push_neg; intro _; linarith [h.1]),
      if_neg (by push_neg; intro _; linarith [h.1]),
      if_neg (by push_neg; intro _; linarith [h.1]), if_pos h]
  · simp only [riskCategory]
    rcases h with hv | hv
    · rw [if_neg (by push_neg; intro h0; linarith),
        if_neg (by push_neg; intro h0; linarith),
        if_neg (by push_neg; intro h0; linarith),
        if_neg (by push_neg; intro h0; linarith)]
    · rw [if_neg (by push_neg; intro _; linarith),
        if_neg (by push_neg; intro _; linarith),
        if_neg (by push_neg; intro _; linarith),
        if_neg (by push_neg; intro _; linarith)]

/-- Witness for the amended C3 at the concrete value 1/3. -/
theorem C3_bins_witness : riskCategory (some (1 / 3)) = some "Moderate" :=
  (C3_bins_right_closed (1 / 3)).2.1 (by norm_num)

theorem exists_of_mem_zipWith {α β γ : Type} {f : α → β → γ} {c : γ} :
    ∀ {as : List α} {bs : List β}, c ∈ List.zipWith f as bs →
      ∃ a, a ∈ as ∧ ∃ b, b ∈ bs ∧ c = f a b := by
  intro as
  induction as with
  | nil => intro bs h; simp at h
  | cons a as ih =>
    intro bs h
    cases bs with
    | nil => simp at h
    | cons b bs =>
      rw [List.zipWith_cons_cons] at h
      rcases List.mem_cons.mp h with rfl | hmem
      · exact ⟨a, List.mem_cons_self a as, b, List.mem_cons_self b bs, rfl⟩
      · rcases ih hmem with ⟨x, hx, y, hy, he⟩
        exact ⟨x, List.mem_cons_of_mem a hx, y, List.mem_cons_of_mem b hy, he⟩

theorem meanSkipna_bounds {cells : List Cell}
    (h : ∀ y : ℚ, some y ∈ cells → 0 ≤ y ∧ y ≤ 1) {x : ℚ}
    (hx : meanSkipna cells = some x) : 0 ≤ x ∧ x ≤ 1 := by
  unfold meanSkipna at hx
  by_cases he : dropna cells = []
  · rw [if_pos he] at hx; cases hx
  · rw [if_neg he] at hx
    have hxval : x = (dropna cells).sum / ((dropna cells).length : ℚ) :=
      (Option.some.inj hx).symm
    have hmem : ∀ y ∈ dropna cells, 0 ≤ y ∧ y ≤ 1 := by
      intro y hy
      rcases List.mem_filterMap.mp hy with ⟨c, hc, hcy⟩
      have hcm : c = some y := hcy
      exact h y (hcm ▸ hc)
    have hlen : 0 < ((dropna cells).length : ℚ) := by
      exact_mod_cast List.length_pos.mpr he
    have hsum0 : 0 ≤ (dropna cells).sum :=
      List.sum_nonneg (fun y hy => (hmem y hy).1)
    have hsumle : (dropna cells).sum ≤ ((dropna cells).length : ℚ) := by
      have := List.sum_le_card_nsmul (dropna cells) 1 (fun y hy => (hmem y hy).2)
      simpa using this
    constructor
    · rw [hxval]; exact div_nonneg hsum0 (le_of_lt hlen)
    · rw [hxval]; exact (div_le_one hlen).mpr hsumle

/-- C2: after `calculate_risk_scores`, whenever the poverty inputs lie in the
native [0, 1] scale the spec assigns them, every present entry of each derived
score column — hazard composite, social, environmental and combined
vulnerability, compound risk — lies in [0, 1]; missing entries stay missing. -/
theorem C2_scores_unit_interval (rows : List MasterRow)
    (hp : ∀ r ∈ rows, ∀ p : ℚ, r.poverty = some p → 0 ≤ p ∧ p ≤ 1) :
    (∀ x : ℚ, some x ∈ hazard_score_composite rows → 0 ≤ x ∧ x ≤ 1) ∧
    (∀ x : ℚ, some x ∈ social_vulnerability rows → 0 ≤ x ∧ x ≤ 1) ∧
    (∀ x : ℚ, some x ∈ environmental_vulnerability rows → 0 ≤ x ∧ x ≤ 1) ∧
    (∀ x : ℚ, some x ∈ vulnerability_composite rows → 0 ≤ x ∧ x ≤ 1) ∧
    (∀ x : ℚ, some x ∈ compound_risk_score rows → 0 ≤ x ∧ x ≤ 1) := by
  have hhc : ∀ x : ℚ, some x ∈ hazard_score_composite rows → 0 ≤ x ∧ x ≤ 1 := by
    intro x hx
    unfold hazard_score_composite at hx
    rcases exists_of_mem_zipWith hx with ⟨a, ha, b, hb, he⟩
    refine meanSkipna_bounds ?_ he.symm
    intro y hy
    rcases List.mem_cons.mp hy with hya | hy
    · rw [← hya] at ha
      exact normalize_entry_bounds ha
    · rw [← List.mem_singleton.mp hy] at hb
      exact normalize_entry_bounds hb
  have hsv : ∀ x : ℚ, some x ∈ social_vulnerability rows → 0 ≤ x ∧ x ≤ 1 := by
    intro x hx
    rcases List.mem_map.mp hx with ⟨r, hr, hrx⟩
    exact hp r hr x hrx
  have hev : ∀ x : ℚ, some x ∈ environmental_vulnerability rows →
      0 ≤ x ∧ x ≤ 1 := by
    intro x hx
    unfold environmental_vulnerability hazard_erosion_risk at hx
    exact normalize_entry_bounds hx
  have hvc : ∀ x : ℚ, some x ∈ vulnerability_composite rows →
      0 ≤ x ∧ x ≤ 1 := by
    intro x hx
    unfold vulnerability_composite at hx
    rcases exists_of_mem_zipWith hx with ⟨a, ha, b, hb, he⟩
    refine meanSkipna_bounds ?_ he.symm
    intro y hy
    rcases List.mem_cons.mp hy with hya | hy
    · rw [← hya] at ha
      exact hsv y ha
    · rw [← List.mem_singleton.mp hy] at hb
      exact hev y hb
  refine ⟨hhc, hsv, hev, hvc, ?_⟩
  intro x hx
  unfold compound_risk_score at hx
  rcases exists_of_mem_zipWith hx with ⟨a, ha, b, hb, he⟩
  cases a with
  | none => cases he
  | some u =>
    cases b with
    | none => cases he
    | some v =>
      have hxuv : x = u * v := (Option.some.inj he)
      have hu := hhc u ha
      have hv := hvc v hb
      constructor
      · rw [hxuv]; exact mul_nonneg hu.1 hv.1
      · rw [hxuv]; exact mul_le_one₀ hu.2 hv.1 hv.2

/-- Witness for C2: the second compound risk score of `exMaster`, 3/4, lies in
[0, 1]. -/
theorem C2_witness : 0 ≤ (3 / 4 : ℚ) ∧ (3 / 4 : ℚ) ≤ 1 :=
  (C2_scores_unit_interval exMaster (by
    intro r hr p hpov
    rcases List.mem_cons.mp hr with rfl | hr
    · rw [show p = 0 from (Option.some.inj hpov).symm]
      norm_num
    · rcases List.mem_cons.mp hr with rfl | hr
      · rw [show p = 1 / 2 from (Option.some.inj hpov).symm]
        norm_num
      · cases hr)).2.2.2.2 (3 / 4) (by
    norm_num [compound_risk_score, hazard_score_composite, vulnerability_composite,
      hazard_water_stress, hazard_erosion_risk, social_vulnerability,
      environmental_vulnerability, normalize_to_risk, meanSkipna, cellMul,
      dropna, listMax, listMin, exMaster, List.zipWith, List.filterMap,
      List.cons_ne_nil])

/-- Counterexample to C1: on `exMaster` every record has present hazard and
vulnerability scores, yet the final pipeline's `calculate_risk_scores` leaves
`compound_risk_score` as the raw product — its column is [0, 3/4], whose
dataset-wide maximum is 3/4, not 1. -/
theorem C1_counterexample :
    compound_risk_score exMaster = [some 0, some (3 / 4)] ∧
    listMax (dropna (compound_risk_score exMaster)) = 3 / 4 ∧
    (3 / 4 : ℚ) ≠ 1 := by
  refine ⟨?_, ?_, by norm_num⟩ <;>
    norm_num [compound_risk_score, hazard_score_composite, vulnerability_composite,
      hazard_water_stress, hazard_erosion_risk, social_vulnerability,
      environmental_vulnerability, normalize_to_risk, meanSkipna, cellMul,
      dropna, listMax, listMin, exMaster, List.zipWith, List.filterMap,
      List.cons_ne_nil]

theorem listMax_map_div (l : List ℚ) (c : ℚ) (hc : 0 < c) (hl : l ≠ []) :
    listMax (l.map (fun x => x / c)) = listMax l / c := by
  have hml : l.map (fun x => x / c) ≠ [] := by
    intro h
    exact hl (List.map_eq_nil_iff.mp h)
  apply le_antisymm
  · rcases List.mem_map.mp (listMax_mem hml) with ⟨a, ha, hae⟩
    rw [← hae]
    exact div_le_div_of_nonneg_right (le_listMax_of_mem ha) hc.le
  · exact le_listMax_of_mem (List.mem_map.mpr ⟨listMax l, listMax_mem hl, rfl⟩)

/-- C1 amended: the geospatial variant `calculate_compound_risk` does compute
hazard × combined vulnerability renormalized by the dataset-wide maximum, and
whenever that maximum is positive the maximum compound risk score is exactly
1; the final pipeline's `calculate_risk_scores` (see `C1_counterexample`)
skips the renormalization. -/
theorem C1_compound_renormalized (rows : List GeoScoredRow) (h : rows ≠ [])
    (hpos : 0 < listMax (rows.map rawCompound)) :
    (∀ x ∈ calculate_compound_risk rows,
      ∃ r ∈ rows, x = rawCompound r / listMax (rows.map rawCompound)) ∧
    listMax (calculate_compound_risk rows) = 1 := by
  constructor
  · intro x hx
    rcases List.mem_map.mp hx with ⟨y, hy, hye⟩
    rcases List.mem_map.mp hy with ⟨r, hr, hre⟩
    exact ⟨r, hr, by rw [← hye, ← hre]⟩
  · unfold calculate_compound_risk
    rw [listMax_map_div (rows.map rawCompound) _ hpos
      (fun hn => h (List.map_eq_nil_iff.mp hn))]
    exact div_self (ne_of_gt hpos)

/-- Witness for the amended C1 at a one-row table with all scores 1. -/
theorem C1_witness : listMax (calculate_compound_risk [⟨1, 1, 1⟩]) = 1 :=
  (C1_compound_renormalized [⟨1, 1, 1⟩] (List.cons_ne_nil _ _)
    (by norm_num [rawCompound, combined_vulnerability_score, listMax])).2

theorem length_insertSorted (x : ℚ) (l : List ℚ) :
    (insertSorted x l).length = l.length + 1 := by
  induction l with
  | nil => rfl
  | cons y ys ih =>
    by_cases h : x ≤ y
    · simp [insertSorted, if_pos h]
    · simp [insertSorted, if_neg h, ih]

theorem length_sortAsc (l : List ℚ) : (sortAsc l).length = l.length := by
  induction l with
  | nil => rfl
  | cons x xs ih =>
    show (insertSorted x (sortAsc xs)).length = xs.length + 1
    rw [length_insertSorted, ih]

theorem sortAsc_eq_nil_iff (l : List ℚ) : sortAsc l = [] ↔ l = [] := by
  constructor
  · intro h
    have := length_sortAsc l
    rw [h] at this
    exact List.length_eq_zero.mp this.symm
  · intro h; rw [h]; rfl

theorem median_isSome {l : List ℚ} (h : l ≠ []) : (median l).isSome = true := by
  have hs : sortAsc l ≠ [] := fun he => h ((sortAsc_eq_nil_iff l).mp he)
  unfold median
  rw [if_neg hs]
  by_cases hp : (sortAsc l).length % 2 = 1
  · rw [if_pos hp]; rfl
  · rw [if_neg hp]; rfl

/-- C4: when the poverty column has at least one present value, the resolved
column has zero missing entries and the `poverty_imputed` flag column is True
exactly at the originally-missing rows (so all False when nothing was
missing). -/
theorem C4_imputation_flags (rows : List PovRow)
    (h : ∃ r ∈ rows, r.poverty.isSome = true) :
    ((resolveMissing rows).1.all (fun c => c.isSome)) = true ∧
    (resolveMissing rows).2 = rows.map (fun r => r.poverty.isNone) := by
  by_cases hcnt : rows.countP (fun r => r.poverty.isNone) = 0
  · unfold resolveMissing
    rw [if_pos hcnt]
    have hnone : ∀ r ∈ rows, r.poverty.isNone = false := by
      intro r hr
      have := List.countP_eq_zero.mp hcnt r hr
      exact Bool.not_eq_true _ ▸ (Bool.eq_false_iff.mpr this)
    constructor
    · rw [List.all_eq_true]
      intro c hc
      rcases List.mem_map.mp hc with ⟨r, hr, hre⟩
      rw [← hre]
      cases hpov : r.poverty with
      | none =>
        have hcontra := hnone r hr
        rw [hpov] at hcontra
        simp at hcontra
      | some v => rfl
    · refine List.map_congr_left ?_
      intro r hr
      exact (hnone r hr).symm
  · unfold resolveMissing
    rw [if_neg hcnt]
    refine ⟨?_, rfl⟩
    rcases h with ⟨r0, hr0, hr0s⟩
    rcases Option.isSome_iff_exists.mp hr0s with ⟨v, hv⟩
    have hstep1 : some v ∈ rows.map (imputeCountry rows) :=
      List.mem_map.mpr ⟨r0, hr0, by simp [imputeCountry, hv]⟩
    have hvals : v ∈ (rows.map (imputeCountry rows)).filterMap id :=
      List.mem_filterMap.mpr ⟨some v, hstep1, rfl⟩
    have hmed : (median ((rows.map (imputeCountry rows)).filterMap id)).isSome
        = true := median_isSome (List.ne_nil_of_mem hvals)
    rw [List.all_eq_true]
    intro c hc
    rcases List.mem_map.mp hc with ⟨c1, _, hc1e⟩
    rw [← hc1e]
    cases c1 with
    | some w => rfl
    | none => exact hmed

/-- Witness for the amended C4 at `demoPov`: the resolved column is complete
and the flags mark exactly the originally-missing middle row. -/
theorem C4_witness :
    ((resolveMissing demoPov).1.all (fun c => c.isSome)) = true ∧
    (resolveMissing demoPov).2 = demoPov.map (fun r => r.poverty.isNone) :=
  C4_imputation_flags demoPov ⟨⟨"A", some (1 / 4)⟩, List.mem_cons_self _ _, rfl⟩

/-- Counterexample to C4 as stated: a one-row table whose poverty column is
entirely missing has at least one missing value, yet after the resolver runs
the column still has a missing entry (the global median is undefined and the
fill is a no-op). -/
theorem C4_counterexample :
    ([⟨"A", none⟩] : List PovRow).countP (fun r => r.poverty.isNone) ≠ 0 ∧
    ((resolveMissing [⟨"A", none⟩]).1.all (fun c => c.isSome)) = false := by
  constructor
  · decide
  · decide

/-- C8 amended: when the imputable column has no present value at all, the
Missing-Data Resolver leaves every entry missing — country and global medians
are undefined, both fills are no-ops, and no error of any kind is raised. -/
theorem C8_all_missing_left_missing (rows : List PovRow) (hne : rows ≠ [])
    (h : ∀ r ∈ rows, r.poverty = none) :
    (resolveMissing rows).1 = rows.map (fun _ => none) := by
  have hcnt : rows.countP (fun r => r.poverty.isNone) ≠ 0 := by
    rw [List.countP_eq_length.mpr (fun r hr => by rw [h r hr]; rfl)]
    intro hlen
    exact hne (List.length_eq_zero.mp hlen)
  unfold resolveMissing
  rw [if_neg hcnt]
  have hcv : ∀ c, countryValues rows c = [] := by
    intro c
    unfold countryValues
    rw [List.filterMap_eq_nil_iff]
    intro r hr
    exact h r (List.mem_filter.mp hr).1
  have hstep1 : rows.map (imputeCountry rows) = rows.map (fun _ => (none : Cell)) := by
    refine List.map_congr_left ?_
    intro r hr
    simp only [imputeCountry, h r hr, hcv]
    rfl
  rw [hstep1]
  have hfm : (rows.map (fun _ => (none : Cell))).filterMap id = [] := by
    rw [List.filterMap_eq_nil_iff]
    intro a ha
    rcases List.mem_map.mp ha with ⟨r, _, hre⟩
    rw [← hre]
    rfl
  rw [hfm, List.map_map]
  refine List.map_congr_left ?_
  intro r hr
  rfl

/-- Witness for the amended C8 at the one-row all-missing table. -/
theorem C8_witness :
    (resolveMissing [⟨"A", none⟩]).1 = ([⟨"A", none⟩] : List PovRow).map (fun _ => none) :=
  C8_all_missing_left_missing [⟨"A", none⟩] (List.cons_ne_nil _ _) (by decide)

/-- Counterexample to C8 as stated: on the all-missing table the resolver
produces an output table (column untouched, flag set) instead of raising a
fatal error — no `InsufficientDataError` exists anywhere in the code. -/
theorem C8_counterexample :
    (resolveMissing [⟨"A", none⟩]).1 = [none] ∧
    (resolveMissing [⟨"A", none⟩]).2 = [true] := by
  constructor
  · decide
  · decide

theorem length_filter_key_le_one {l : List GeoKey} (h : l.Nodup) (a : GeoKey) :
    (l.filter (fun r => r = a)).length ≤ 1 := by
  induction l with
  | nil => exact Nat.zero_le 1
  | cons x xs ih =>
    rcases List.nodup_cons.mp h with ⟨hx, hxs⟩
    by_cases hxa : x = a
    · rw [List.filter_cons_of_pos (by simp [hxa])]
      have hnil : xs.filter (fun r => r = a) = [] := by
        rw [List.filter_eq_nil_iff]
        intro b hb hba
        have hbeq : b = a := by simpa using hba
        rw [hxa] at hx
        rw [← hbeq] at hx
        exact hx hb
      rw [hnil]
      exact Nat.le_refl 1
    · rw [List.filter_cons_of_neg (by simp [hxa])]
      exact ih hxs

theorem innerJoinKeys_length_le_left {left right : List GeoKey}
    (h : right.Nodup) : (innerJoinKeys left right).length ≤ left.length := by
  induction left with
  | nil => exact Nat.le_refl 0
  | cons k ks ih =>
    show ((right.filter (fun r => r = k)).map (fun _ => k) ++
      innerJoinKeys ks right).length ≤ ks.length + 1
    rw [List.length_append, List.length_map]
    have := length_filter_key_le_one h k
    omega

theorem innerJoinKeys_congr_right {ks r1 r2 : List GeoKey}
    (h : ∀ a ∈ ks, r1.filter (fun r => r = a) = r2.filter (fun r => r = a)) :
    innerJoinKeys ks r1 = innerJoinKeys ks r2 := by
  induction ks with
  | nil => rfl
  | cons k ks ih =>
    show (r1.filter (fun r => r = k)).map (fun _ => k) ++ innerJoinKeys ks r1 =
      (r2.filter (fun r => r = k)).map (fun _ => k) ++ innerJoinKeys ks r2
    rw [h k (List.mem_cons_self k ks),
      ih (fun a ha => h a (List.mem_cons_of_mem k ha))]

theorem filter_not_k_filter_a {right : List GeoKey} {k a : GeoKey} (hka : a ≠ k) :
    (right.filter (fun r => ! decide (r = k))).filter (fun r => r = a) =
      right.filter (fun r => r = a) := by
  induction right with
  | nil => rfl
  | cons x xs ih =>
    by_cases hxk : x = k
    · have hxa : ¬(x = a) := by
        rw [hxk]
        exact fun he => hka he.symm
      rw [List.filter_cons_of_neg (by simp [hxk]),
        List.filter_cons_of_neg (by simp [hxa])]
      exact ih
    · rw [List.filter_cons_of_pos (by simp [hxk])]
      by_cases hxa : x = a
      · rw [List.filter_cons_of_pos (by simp [hxa]),
          List.filter_cons_of_pos (by simp [hxa]), ih]
      · rw [List.filter_cons_of_neg (by simp [hxa]),
          List.filter_cons_of_neg (by simp [hxa]), ih]

theorem length_filter_add_not (l : List GeoKey) (k : GeoKey) :
    (l.filter (fun r => r = k)).length +
      (l.filter (fun r => ! decide (r = k))).length = l.length := by
  induction l with
  | nil => rfl
  | cons x xs ih =>
    by_cases hx : x = k
    · rw [List.filter_cons_of_pos (by simp [hx]),
        List.filter_cons_of_neg (by simp [hx])]
      simp only [List.length_cons]
      omega
    · rw [List.filter_cons_of_neg (by simp [hx]),
        List.filter_cons_of_pos (by simp [hx])]
      simp only [List.length_cons]
      omega

theorem innerJoinKeys_length_le_right {left : List GeoKey} :
    ∀ {right : List GeoKey}, left.Nodup →
      (innerJoinKeys left right).length ≤ right.length := by
  induction left with
  | nil => intro right _; exact Nat.zero_le _
  | cons k ks ih =>
    intro right h
    rcases List.nodup_cons.mp h with ⟨hk, hks⟩
    have hsplit : (innerJoinKeys (k :: ks) right).length =
        (right.filter (fun r => r = k)).length + (innerJoinKeys ks right).length := by
      show ((right.filter (fun r => r = k)).map (fun _ => k) ++
        innerJoinKeys ks right).length = _
      rw [List.length_append, List.length_map]
    have hrest : innerJoinKeys ks right =
        innerJoinKeys ks (right.filter (fun r => ! decide (r = k))) :=
      innerJoinKeys_congr_right (fun a ha =>
        (filter_not_k_filter_a (fun hae => hk (by rw [← hae]; exact ha))).symm)
    calc (innerJoinKeys (k :: ks) right).length
        = (right.filter (fun r => r = k)).length +
          (innerJoinKeys ks (right.filter (fun r => ! decide (r = k)))).length := by
          rw [hsplit, hrest]
      _ ≤ (right.filter (fun r => r = k)).length +
          (right.filter (fun r => ! decide (r = k))).length :=
          Nat.add_le_add_left (ih hks) _
      _ = right.length := length_filter_add_not right k

theorem leftJoinKeys_length_le_left {left right : List GeoKey}
    (h : right.Nodup) : (leftJoinKeys left right).length ≤ left.length := by
  induction left with
  | nil => exact Nat.le_refl 0
  | cons k ks ih =>
    show ((if (right.filter (fun r => r = k)) = [] then [k]
      else (right.filter (fun r => r = k)).map (fun _ => k)) ++
      leftJoinKeys ks right).length ≤ ks.length + 1
    rw [List.length_append]
    have hone : (if (right.filter (fun r => r = k)) = [] then [k]
        else (right.filter (fun r => r = k)).map (fun _ => k)).length ≤ 1 := by
      by_cases hm : right.filter (fun r => r = k) = []
      · rw [if_pos hm]; exact Nat.le_refl 1
      · rw [if_neg hm, List.length_map]; exact length_filter_key_le_one h k
    have := ih
    omega

/-- C5 amended: when every processed per-source table is unique per GeoKey
(the spec's pre-verification premise), no join step of `fuse_all_datasets`
increases the accumulating row count, and the fused output has at most
min(|erosion|, |ndws|) rows, the two core hazard sources. -/
theorem C5_join_cardinality (erosion ndws vop population poverty : List GeoKey)
    (he : erosion.Nodup) (hn : ndws.Nodup) (hv : vop.Nodup)
    (hp : population.Nodup) (hq : poverty.Nodup) :
    (innerJoinKeys erosion ndws).length ≤ erosion.length ∧
    (innerJoinKeys (innerJoinKeys erosion ndws) vop).length ≤
      (innerJoinKeys erosion ndws).length ∧
    (leftJoinKeys (innerJoinKeys (innerJoinKeys erosion ndws) vop)
      population).length ≤
      (innerJoinKeys (innerJoinKeys erosion ndws) vop).length ∧
    (fuseRowKeys erosion ndws vop population poverty).length ≤
      (leftJoinKeys (innerJoinKeys (innerJoinKeys erosion ndws) vop)
        population).length ∧
    (fuseRowKeys erosion ndws vop population poverty).length ≤
      min erosion.length ndws.length := by
  have h1 : (innerJoinKeys erosion ndws).length ≤ erosion.length :=
    innerJoinKeys_length_le_left hn
  have h1r : (innerJoinKeys erosion ndws).length ≤ ndws.length :=
    innerJoinKeys_length_le_right he
  have h2 : (innerJoinKeys (innerJoinKeys erosion ndws) vop).length ≤
      (innerJoinKeys erosion ndws).length :=
    innerJoinKeys_length_le_left hv
  have h3 : (leftJoinKeys (innerJoinKeys (innerJoinKeys erosion ndws) vop)
      population).length ≤
      (innerJoinKeys (innerJoinKeys erosion ndws) vop).length :=
    leftJoinKeys_length_le_left hp
  have h4 : (fuseRowKeys erosion ndws vop population poverty).length ≤
      (leftJoinKeys (innerJoinKeys (innerJoinKeys erosion ndws) vop)
        population).length :=
    leftJoinKeys_length_le_left hq
  refine ⟨h1, h2, h3, h4, le_min ?_ ?_⟩
  · exact le_trans h4 (le_trans h3 (le_trans h2 h1))
  · exact le_trans h4 (le_trans h3 (le_trans h2 h1r))

/-- Counterexample to C5 as stated: with a duplicated GeoKey in the NDWS
table (nothing in the code pre-verifies uniqueness), the first inner join
fans out from 1 row to 2, and the fused output has 2 rows, exceeding
min(|erosion|, |ndws|) = 1. -/
theorem C5_counterexample :
    (innerJoinKeys [(⟨"A", "B", "C"⟩ : GeoKey)]
      [⟨"A", "B", "C"⟩, ⟨"A", "B", "C"⟩]).length = 2 ∧
    (fuseRowKeys [(⟨"A", "B", "C"⟩ : GeoKey)]
      [⟨"A", "B", "C"⟩, ⟨"A", "B", "C"⟩] [⟨"A", "B", "C"⟩] [] []).length = 2 ∧
    min ([(⟨"A", "B", "C"⟩ : GeoKey)] : List GeoKey).length
      ([⟨"A", "B", "C"⟩, ⟨"A", "B", "C"⟩] : List GeoKey).length = 1 := by
  refine ⟨?_, ?_, ?_⟩ <;> decide

/-- Witness for the amended C5 at three singleton unique-key tables and empty
optional tables. -/
theorem C5_witness :
    (innerJoinKeys [(⟨"A", "B", "C"⟩ : GeoKey)] [⟨"A", "B", "C"⟩]).length ≤
      ([(⟨"A", "B", "C"⟩ : GeoKey)] : List GeoKey).length ∧
    (innerJoinKeys (innerJoinKeys [(⟨"A", "B", "C"⟩ : GeoKey)] [⟨"A", "B", "C"⟩])
      [⟨"A", "B", "C"⟩]).length ≤
      (innerJoinKeys [(⟨"A", "B", "C"⟩ : GeoKey)] [⟨"A", "B", "C"⟩]).length ∧
    (leftJoinKeys (innerJoinKeys (innerJoinKeys [(⟨"A", "B", "C"⟩ : GeoKey)]
      [⟨"A", "B", "C"⟩]) [⟨"A", "B", "C"⟩]) []).length ≤
      (innerJoinKeys (innerJoinKeys [(⟨"A", "B", "C"⟩ : GeoKey)] [⟨"A", "B", "C"⟩])
        [⟨"A", "B", "C"⟩]).length ∧
    (fuseRowKeys [(⟨"A", "B", "C"⟩ : GeoKey)] [⟨"A", "B", "C"⟩] [⟨"A", "B", "C"⟩]
      [] []).length ≤
      (leftJoinKeys (innerJoinKeys (innerJoinKeys [(⟨"A", "B", "C"⟩ : GeoKey)]
        [⟨"A", "B", "C"⟩]) [⟨"A", "B", "C"⟩]) []).length ∧
    (fuseRowKeys [(⟨"A", "B", "C"⟩ : GeoKey)] [⟨"A", "B", "C"⟩] [⟨"A", "B", "C"⟩]
      [] []).length ≤
      min ([(⟨"A", "B", "C"⟩ : GeoKey)] : List GeoKey).length
        ([⟨"A", "B", "C"⟩] : List GeoKey).length :=
  C5_join_cardinality [⟨"A", "B", "C"⟩] [⟨"A", "B", "C"⟩] [⟨"A", "B", "C"⟩] [] []
    (by decide) (by decide) (by decide) (by decide) (by decide)

/-- C6 amended: in every aggregation group with non-zero total population,
compound risk, social vulnerability and combined vulnerability aggregate as
the population-weighted mean Σ(score·pop)/Σpop, while the hazard sub-scores
and environmental vulnerability aggregate as unweighted means and population
as a sum; a zero-population group makes the weighted fields undefined
(`np.average` raises) rather than falling back to an unweighted mean. -/
theorem C6_aggregate_mixed_means (g : List ScoredRec)
    (hpop : (g.map (fun r => r.population_total)).sum ≠ 0) :
    (aggregateGroup g).compound_risk_score =
      some ((List.zipWith (fun v w => v * w)
        (g.map (fun r => r.compound_risk_score))
        (g.map (fun r => r.population_total))).sum /
        (g.map (fun r => r.population_total)).sum) ∧
    (aggregateGroup g).social_vulnerability =
      some ((List.zipWith (fun v w => v * w)
        (g.map (fun r => r.social_vulnerability))
        (g.map (fun r => r.population_total))).sum /
        (g.map (fun r => r.population_total)).sum) ∧
    (aggregateGroup g).vulnerability_composite =
      some ((List.zipWith (fun v w => v * w)
        (g.map (fun r => r.vulnerability_composite))
        (g.map (fun r => r.population_total))).sum /
        (g.map (fun r => r.population_total)).sum) ∧
    (aggregateGroup g).hazard_water_stress =
      (g.map (fun r => r.hazard_water_stress)).sum /
        ((g.map (fun r => r.hazard_water_stress)).length : ℚ) ∧
    (aggregateGroup g).environmental_vulnerability =
      (g.map (fun r => r.environmental_vulnerability)).sum /
        ((g.map (fun r => r.environmental_vulnerability)).length : ℚ) ∧
    (aggregateGroup g).population_total =
      (g.map (fun r => r.population_total)).sum := by
  refine ⟨?_, ?_, ?_, rfl, rfl, rfl⟩ <;>
    simp only [aggregateGroup, npAverage, if_neg hpop]

/-- Counterexample to C6: in a group with populations [100, 300] and hazard
water-stress scores [1/5, 3/5] the aggregate hazard score is the unweighted
mean 2/5, not the population-weighted mean 1/2 — so not every score-type
field is population-weighted; and in a group whose total population is 0 the
weighted compound risk is undefined (numpy raises) instead of the claimed
unweighted-mean fallback. -/
theorem C6_counterexample :
    (aggregateGroup [⟨100, 0, 1/5, 1/5, 0, 0, 0, 0⟩,
      ⟨300, 0, 3/5, 3/5, 0, 0, 0, 0⟩]).hazard_water_stress = 2 / 5 ∧
    ((1/5 : ℚ) * 100 + (3/5) * 300) / ((100 : ℚ) + 300) = 1 / 2 ∧
    (2 / 5 : ℚ) ≠ 1 / 2 ∧
    (aggregateGroup [⟨0, 0, 1/5, 1/5, 0, 0, 0, 0⟩,
      ⟨0, 0, 3/5, 3/5, 0, 0, 0, 0⟩]).compound_risk_score = none := by
  refine ⟨?_, by norm_num, by norm_num, ?_⟩
  · norm_num [aggregateGroup, listMean]
  · norm_num [aggregateGroup, npAverage]

/-- Witness for the amended C6: the spec's own worked example — populations
[100, 300], compound risk scores [1/5, 3/5] — aggregates to the
population-weighted value 1/2. -/
theorem C6_witness :
    (aggregateGroup [⟨100, 0, 1/5, 1/5, 0, 0, 0, 0⟩,
      ⟨300, 0, 3/5, 3/5, 0, 0, 0, 0⟩]).compound_risk_score = some (1 / 2) := by
  have h := (C6_aggregate_mixed_means
    [⟨100, 0, 1/5, 1/5, 0, 0, 0, 0⟩, ⟨300, 0, 3/5, 3/5, 0, 0, 0, 0⟩]
    (by norm_num)).1
  rw [h]
  norm_num

/-- C7 amended: a processor whose filter matches no row returns an empty
processed table without raising anything; the pipeline aborts (with a
ValueError, not an `EmptySourceError`) only after fusion, when the fused
master table is empty. -/
theorem C7_empty_processor_silent (df : List NdwsRaw)
    (h : ∀ r ∈ df, ¬(r.scenario = "ssp245" ∧ r.timeframe = "2041_2060")) :
    process_hazard_ndws df = [] ∧
    validateFusion (process_hazard_ndws df) =
      Except.error "Fusion resulted in empty dataset" := by
  have h1 : process_hazard_ndws df = [] := by
    unfold process_hazard_ndws
    have hf : df.filter
        (fun r => r.scenario == "ssp245" && r.timeframe == "2041_2060") = [] := by
      rw [List.filter_eq_nil_iff]
      intro r hr
      simp only [Bool.and_eq_true, beq_iff_eq]
      exact h r hr
    rw [hf]
    rfl
  exact ⟨h1, by rw [h1]; rfl⟩

/-- Counterexample to C7 as stated: on a non-empty raw table with no row in
the configured scenario/timeframe, `process_hazard_ndws` returns the empty
processed table (no `EmptySourceError` exists anywhere in the repository). -/
theorem C7_counterexample :
    process_hazard_ndws [⟨"A", "B", "C", "historic", "historic", 5⟩] = [] ∧
    ([⟨"A", "B", "C", "historic", "historic", 5⟩] : List NdwsRaw) ≠ [] := by
  constructor
  · rfl
  · exact List.cons_ne_nil _ _

/-- Witness for the amended C7 at the same concrete one-row table. -/
theorem C7_witness :
    process_hazard_ndws [⟨"A", "B", "C", "historic", "historic", 5⟩] = [] ∧
    validateFusion (process_hazard_ndws
      [⟨"A", "B", "C", "historic", "historic", 5⟩]) =
      Except.error "Fusion resulted in empty dataset" :=
  C7_empty_processor_silent [⟨"A", "B", "C", "historic", "historic", 5⟩]
    (by decide)
